import Mathlib

/-!
Verification of the incremental email-ingestion and watermark protocol of the
invoicer application (IMAP sources, chunked transactional processing, folder
reconciliation, token lifecycle).

The Python sources are shallowly embedded:
* `src/invoicer/ingestion/gmail.py` (`GmailSource.fetch`) — the watermark
  driven fetcher.  The remote mailbox is modelled as the ascending list of
  message uids present in the selected folder; the IMAP `UID SEARCH`
  predicates used by the code are modelled as the corresponding filters over
  that list (IMAP returns search results in ascending uid order).  Per-uid
  `UID FETCH` calls are an oracle `Nat → Option Bytes`; a `none` result is
  skipped, like the code skips failed fetches.
* `src/invoicer/storage/database.py` (`DatabaseClient`) — the relational
  store is a record of source-folder rows, invoice rows and the next folder
  serial.  Timestamps (`created_at`, `updated_at`, `last_processed_at`) are
  wall-clock noise and are not modelled; no claim mentions them.
* `src/modal/worker.py` (`process_chunk`) — external collaborators (parser,
  LLM classify/extract, S3) are oracles in `WorkerEnv`; a Python exception is
  an `Except.error`.  The database transaction context manager either commits
  the whole body or rolls back and re-raises; rollback-and-reraise is modelled
  as returning `Except.error` with the pre-transaction state untouched, the
  commit-versus-fail outcome being the oracle `db_fail` keyed by chunk number.
* `src/modal/scheduler.py` (`refresh_source_token`, `reconcile_folders` and
  the scheduler's token / reconcile / spawn phases, plus the chunk loop of
  `process_source_folder`).
-/

/-- Raw RFC822 bytes (`bytes` in Python). -/
abbrev Bytes := List Nat

/-! ## Ingestion model (`src/invoicer/ingestion/gmail.py`) -/

/-- `models.EmailMessage`: raw message from IMAP with its uid. -/
structure EmailMessage where
  uid : Nat
  rfc822_data : Bytes
deriving Repr, DecidableEq

/-- `ingestion/base.py FolderInfo`: a remote folder name with its epoch
identifier (IMAP UIDVALIDITY). -/
structure FolderInfo where
  name : String
  uid_validity : String
deriving Repr, DecidableEq

/-- `UID SEARCH ALL` over a mailbox whose uids (ascending) are `mbox`
(gmail.py line 110). -/
def searchAll (mbox : List Nat) : List Nat := mbox

/-- `UID SEARCH UID a:*`: uids at least `a` (gmail.py line 125, with
`a = high_water_mark + 1`). -/
def searchFrom (mbox : List Nat) (a : Nat) : List Nat :=
  mbox.filter (fun u => a ≤ u)

/-- `UID SEARCH UID a:b`: uids in `[a, b]` (gmail.py line 131, with `a = 1`
and `b = low_water_mark - 1`). -/
def searchRange (mbox : List Nat) (a b : Nat) : List Nat :=
  mbox.filter (fun u => a ≤ u && u ≤ b)

/-- Python list slice `l[-n:]` for `n ≥ 0`: for `n = 0` it is `l[0:]`,
the whole list; otherwise the last `n` elements (gmail.py line 116). -/
def sliceLastPy (l : List Nat) (n : Nat) : List Nat :=
  if n = 0 then l else l.drop (l.length - n)

/-- The uid-selection logic of `GmailSource.fetch` (gmail.py lines 107-150):
cold start takes the newest `batchSize` uids; otherwise new arrivals
(`> high`) come first, then historical uids (`< low`) sorted ascending, the
combined list truncated to `batchSize`. -/
def fetchUids (mbox : List Nat) (high_water_mark low_water_mark : Option Nat)
    (batchSize : Nat) : List Nat :=
  match high_water_mark, low_water_mark with
  | none, none =>
    let all_uids := searchAll mbox
    if all_uids.length > batchSize then sliceLastPy all_uids batchSize else all_uids
  | high, low =>
    let new_uids := match high with
      | some h => searchFrom mbox (h + 1)
      | none => []
    let historical_uids := match low with
      | some l => searchRange mbox 1 (l - 1)
      | none => []
    let historical_sorted := List.insertionSort (· ≤ ·) historical_uids
    let combined := new_uids ++ historical_sorted
    if combined.length > batchSize then combined.take batchSize else combined

/-- The per-uid `UID FETCH` loop of `GmailSource.fetch` (gmail.py lines
152-165): a failed fetch (`none`) is skipped, the rest become messages. -/
def fetchMessages (fetchData : Nat → Option Bytes) (uids : List Nat) :
    List EmailMessage :=
  uids.filterMap (fun uid => (fetchData uid).map (fun d => ⟨uid, d⟩))

/-- `GmailSource.fetch` (gmail.py lines 80-165): select uids from the
watermark state, then fetch each one. -/
def GmailSource.fetch (mbox : List Nat) (fetchData : Nat → Option Bytes)
    (high_water_mark low_water_mark : Option Nat) (batchSize : Nat) :
    List EmailMessage :=
  fetchMessages fetchData (fetchUids mbox high_water_mark low_water_mark batchSize)

/-! ## Storage model (`src/invoicer/storage/database.py`) -/

/-- `models.AttachedFile`: stored-artifact reference kept on an invoice. -/
structure AttachedFile where
  file_name : String
  file_key : String
deriving Repr, DecidableEq

/-- `models.SourceFolder`: the tracking record for one
(source, folder-name, epoch) triple.  Timestamp columns are not modelled. -/
structure SourceFolder where
  id : Nat
  source_id : Nat
  folder_name : String
  uid_validity : String
  high_water_mark : Option Nat
  low_water_mark : Option Nat
deriving Repr, DecidableEq

/-- A persisted invoice row.  Only the columns the claims touch are kept:
the natural key `invoice_number` (the `ON CONFLICT` target), the ownership
and provenance fields set by the worker, and the artifact references.  The
remaining extracted columns (vendor, amounts, dates, line items) ride along
with the natural key and are elided. -/
structure InvoiceRow where
  user_id : String
  source_id : Nat
  uid : Nat
  message_id : String
  invoice_number : String
  attached_files : List AttachedFile
deriving Repr, DecidableEq

/-- The relational store: source_folder rows, invoice rows, and the serial
that yields the next source_folder id. -/
structure DbState where
  folders : List SourceFolder
  invoices : List InvoiceRow
  nextFolderId : Nat
deriving Repr, DecidableEq

/-- Row predicate of `get_folder_by_name_and_uidvalidity`'s WHERE clause. -/
def folderMatches (sourceId : Nat) (folderName uidValidity : String)
    (f : SourceFolder) : Bool :=
  f.source_id == sourceId && f.folder_name == folderName &&
    f.uid_validity == uidValidity

/-- `DatabaseClient.get_source_folder_by_id` (database.py lines 157-176). -/
def DatabaseClient.get_source_folder_by_id (db : DbState) (folderId : Nat) :
    Option SourceFolder :=
  db.folders.find? (fun f => f.id == folderId)

/-- `DatabaseClient.get_folder_by_name_and_uidvalidity` (database.py lines
178-201).  The table never holds two rows with the same triple (an invariant
reconciliation maintains, `DbWF` below), so which matching row SQL returns
first is immaterial; the model takes the first. -/
def DatabaseClient.get_folder_by_name_and_uidvalidity (db : DbState)
    (sourceId : Nat) (folderName uidValidity : String) : Option SourceFolder :=
  db.folders.find? (folderMatches sourceId folderName uidValidity)

/-- `DatabaseClient.create_source_folder` (database.py lines 203-227): insert
a fresh row — watermark columns are not in the INSERT column list, so the new
row has null watermarks — returning the new serial id. -/
def DatabaseClient.create_source_folder (db : DbState) (sourceId : Nat)
    (folderName uidValidity : String) : Nat × DbState :=
  let folderId := db.nextFolderId
  (folderId,
    { db with
      folders := db.folders ++ [⟨folderId, sourceId, folderName, uidValidity, none, none⟩],
      nextFolderId := folderId + 1 })

/-- `DatabaseClient.update_source_folder_watermarks` (database.py lines
229-255): UPDATE of the watermark columns of the rows with the given id. -/
def DatabaseClient.update_source_folder_watermarks (db : DbState)
    (folderId : Nat) (high low : Option Nat) : DbState :=
  { db with
    folders := db.folders.map (fun f =>
      if f.id == folderId then
        { f with high_water_mark := high, low_water_mark := low }
      else f) }

/-- `DatabaseClient.insert_invoices` (database.py lines 261-308): bulk insert
with `ON CONFLICT (invoice_number) DO NOTHING` — each row is inserted only if
its natural key is absent, duplicates (also within the batch) are skipped. -/
def DatabaseClient.insert_invoices (db : DbState) (invoices : List InvoiceRow) :
    DbState :=
  { db with
    invoices := invoices.foldl
      (fun acc inv =>
        if acc.any (fun r => r.invoice_number == inv.invoice_number) then acc
        else acc ++ [inv])
      db.invoices }

/-! ## Folder reconciliation (`src/modal/scheduler.py` lines 278-340) -/

/-- The reconciliation loop of `reconcile_folders` (scheduler.py lines
310-336), written as structural recursion over the remote folder list: look
up the (source, folder-name, epoch) triple; reuse the row if present,
otherwise create one; collect the ids in order. -/
def reconcile_folders (db : DbState) (sourceId : Nat) :
    List FolderInfo → List Nat × DbState
  | [] => ([], db)
  | folder_info :: rest =>
    match DatabaseClient.get_folder_by_name_and_uidvalidity db sourceId
        folder_info.name folder_info.uid_validity with
    | some existing =>
      let r := reconcile_folders db sourceId rest
      (existing.id :: r.1, r.2)
    | none =>
      let created := DatabaseClient.create_source_folder db sourceId
        folder_info.name folder_info.uid_validity
      let r := reconcile_folders created.2 sourceId rest
      (created.1 :: r.1, r.2)

/-- Well-formedness of the source_folder table: ids below the serial, ids
pairwise distinct, and at most one row per (source, folder-name, epoch)
triple.  An empty table satisfies it and reconciliation preserves it. -/
def DbWF (db : DbState) : Prop :=
  (∀ f ∈ db.folders, f.id < db.nextFolderId) ∧
  (db.folders.map SourceFolder.id).Nodup ∧
  (∀ f ∈ db.folders, ∀ g ∈ db.folders,
    f.source_id = g.source_id → f.folder_name = g.folder_name →
      f.uid_validity = g.uid_validity → f = g)

/-! ## Chunk processing (`src/modal/worker.py`) -/

/-- `models.EmailAttachment` (the fields `process_chunk` reads). -/
structure EmailAttachment where
  filename : String
  content_type : String
  data : Bytes
deriving Repr, DecidableEq

/-- `models.ParsedEmail` (the fields `process_chunk` reads). -/
structure ParsedEmail where
  message_id : String
  attachments : List EmailAttachment
deriving Repr, DecidableEq

/-- `models.EmailClassification` (the field `process_chunk` reads). -/
structure EmailClassification where
  is_invoice : Bool
deriving Repr, DecidableEq

/-- The extraction result (`inference.extract_invoice`): as in `InvoiceRow`,
only the natural key is kept of the extracted columns; ownership and
provenance fields are filled in by the worker afterwards. -/
structure ExtractedInvoice where
  invoice_number : String
deriving Repr, DecidableEq

/-- The external collaborators of `process_chunk`, as oracles.  A Python
exception raised by a collaborator is an `Except.error` carrying `str(e)`.
`db_fail n` says whether chunk `n`'s database transaction fails (insert,
update or commit error — rollback makes them indistinguishable). -/
structure WorkerEnv where
  parse : Bytes → Except String ParsedEmail
  classify_email : ParsedEmail → Except String EmailClassification
  extract_invoice : ParsedEmail → Except String (Option ExtractedInvoice)
  s3_exists : String → Bool
  s3_upload : String → Except String Unit
  db_fail : Nat → Bool

/-- The per-chunk identifiers `process_chunk` receives (worker.py lines
21-29). -/
structure ChunkCtx where
  source_folder_id : Nat
  user_id : String
  source_id : Nat
  folder_name : String
  uid_validity : String
deriving Repr, DecidableEq

/-- `S3Client.generate_key` (attachments.py lines 39-55):
`user/source/folder/uidvalidity/uid/filename`.  (The `Path(...).name`
sanitisation only strips directory components from the filename and is
elided.) -/
def generate_key (user_id : String) (source_id : Nat)
    (folder_name uid_validity : String) (message_uid : Nat)
    (filename : String) : String :=
  user_id ++ "/" ++ toString source_id ++ "/" ++ folder_name ++ "/" ++
    uid_validity ++ "/" ++ toString message_uid ++ "/" ++ filename

/-- The attachment-upload loop of `process_chunk` (worker.py lines 104-134):
existence-check before upload; the inner `try/except` around one attachment
logs and RE-RAISES, so an upload error propagates out of this loop. -/
def uploadAttachments (env : WorkerEnv) (ctx : ChunkCtx) (uid : Nat) :
    List EmailAttachment → Except String (List AttachedFile)
  | [] => Except.ok []
  | attachment :: rest => do
    let s3_key := generate_key ctx.user_id ctx.source_id ctx.folder_name
      ctx.uid_validity uid attachment.filename
    if !env.s3_exists s3_key then
      env.s3_upload s3_key
    let files ← uploadAttachments env ctx uid rest
    pure ({ file_name := attachment.filename, file_key := s3_key } :: files)

/-- Outcome of the body of the per-email `try` block. -/
inductive EmailStep where
  | nonInvoice : EmailStep
  | extractNone : EmailStep
  | invoice : InvoiceRow → EmailStep
deriving Repr, DecidableEq

/-- The body of the per-email `try` block of `process_chunk` (worker.py lines
73-141): parse, classify, extract, upload attachments, assemble the invoice
row.  Any `Except.error` escaping here is a raised exception reaching the
outer `except` handler. -/
def processEmailBody (env : WorkerEnv) (ctx : ChunkCtx) (uid : Nat)
    (rfc822_data : Bytes) : Except String EmailStep := do
  let parsed ← env.parse rfc822_data
  let classification ← env.classify_email parsed
  if !classification.is_invoice then
    return EmailStep.nonInvoice
  let extracted ← env.extract_invoice parsed
  match extracted with
  | none => return EmailStep.extractNone
  | some invoice => do
    let attached_files ← uploadAttachments env ctx uid parsed.attachments
    return EmailStep.invoice
      { user_id := ctx.user_id, source_id := ctx.source_id, uid := uid,
        message_id := parsed.message_id,
        invoice_number := invoice.invoice_number,
        attached_files := attached_files }

/-- The per-email counters and lists of `process_chunk` (worker.py lines
59-70). -/
structure ChunkAcc where
  emails_processed : Nat
  invoices_found : Nat
  non_invoices : Nat
  errors : List (Nat × String)
  invoices_to_insert : List InvoiceRow
deriving Repr, DecidableEq

/-- One iteration of the per-email loop of `process_chunk` (worker.py lines
72-147).  The outer `except Exception` (line 143) catches EVERY exception of
the body — including the re-raised attachment-upload failure — records it as
a per-message error and continues with the next email. -/
def stepEmail (env : WorkerEnv) (ctx : ChunkCtx) (acc : ChunkAcc)
    (email : Nat × Bytes) : ChunkAcc :=
  match processEmailBody env ctx email.1 email.2 with
  | Except.ok EmailStep.nonInvoice =>
    { acc with non_invoices := acc.non_invoices + 1,
               emails_processed := acc.emails_processed + 1 }
  | Except.ok EmailStep.extractNone =>
    { acc with
      errors := acc.errors ++ [(email.1, "Invoice extraction returned None")],
      emails_processed := acc.emails_processed + 1 }
  | Except.ok (EmailStep.invoice inv) =>
    { acc with invoices_to_insert := acc.invoices_to_insert ++ [inv],
               invoices_found := acc.invoices_found + 1,
               emails_processed := acc.emails_processed + 1 }
  | Except.error e =>
    { acc with errors := acc.errors ++ [(email.1, e)] }

/-- The body of the `with db.transaction()` block of `process_chunk`
(worker.py lines 152-184): insert the extracted invoices, then recompute and
write the watermarks from ALL uids of the chunk (`processed_uids` is the full
uid list of `emails`, successes and failures alike). -/
def chunkTransactionBody (db : DbState) (ctx : ChunkCtx)
    (emails : List (Nat × Bytes)) (invoices_to_insert : List InvoiceRow) :
    DbState :=
  let db1 := if invoices_to_insert.isEmpty then db
             else DatabaseClient.insert_invoices db invoices_to_insert
  let processed_uids := emails.map Prod.fst
  if processed_uids.isEmpty then db1
  else
    let new_high := processed_uids.foldl Nat.max 0
    let new_low := processed_uids.foldl Nat.min (processed_uids.headD 0)
    match DatabaseClient.get_source_folder_by_id db1 ctx.source_folder_id with
    | none => db1
    | some folder =>
      let high := match folder.high_water_mark with
        | none => new_high
        | some h => if new_high > h then new_high else h
      let low := match folder.low_water_mark with
        | none => new_low
        | some l => if new_low < l then new_low else l
      DatabaseClient.update_source_folder_watermarks db1 ctx.source_folder_id
        (some high) (some low)

/-- `models.ChunkMetrics` (the fields the claims concern; `worker_id` and the
wall-clock timing fields are elided). -/
structure ChunkMetrics where
  source_folder_id : Nat
  chunk_num : Nat
  emails_fetched : Nat
  emails_processed : Nat
  invoices_found : Nat
  non_invoices : Nat
  errors : List (Nat × String)
deriving Repr, DecidableEq

/-- `process_chunk` (worker.py lines 21-211): run the per-email loop, then
commit invoices and watermarks in one transaction; a transaction failure
rolls back (the returned state is untouched: nothing is returned) and
re-raises (worker.py lines 185-188). -/
def process_chunk (env : WorkerEnv) (db : DbState)
    (emails : List (Nat × Bytes)) (ctx : ChunkCtx) (chunk_num : Nat) :
    Except String (DbState × ChunkMetrics) :=
  let acc := emails.foldl (stepEmail env ctx)
    { emails_processed := 0, invoices_found := 0, non_invoices := 0,
      errors := [], invoices_to_insert := [] }
  if env.db_fail chunk_num then
    Except.error "Database transaction failed"
  else
    Except.ok (chunkTransactionBody db ctx emails acc.invoices_to_insert,
      { source_folder_id := ctx.source_folder_id, chunk_num := chunk_num,
        emails_fetched := emails.length,
        emails_processed := acc.emails_processed,
        invoices_found := acc.invoices_found,
        non_invoices := acc.non_invoices,
        errors := acc.errors })

/-! ## Worker chunk loop and scheduler (`src/modal/scheduler.py`) -/

/-- The running totals of `process_source_folder` (scheduler.py lines
141-144). -/
structure WorkerTotals where
  chunks_processed : Nat
  total_invoices : Nat
  total_non_invoices : Nat
  total_errors : Nat
deriving Repr, DecidableEq

/-- The chunk loop of `process_source_folder` (scheduler.py lines 146-176):
chunks are numbered from 1; a chunk failure is caught, every message of the
chunk is counted as an error, and the loop continues with the next chunk
(with the database exactly as the rolled-back transaction left it). -/
def process_source_folder_chunks (env : WorkerEnv) (ctx : ChunkCtx) :
    DbState → Nat → List (List (Nat × Bytes)) → WorkerTotals →
      DbState × WorkerTotals
  | db, _, [], totals => (db, totals)
  | db, chunk_num, emails :: rest, totals =>
    match process_chunk env db emails ctx chunk_num with
    | Except.ok (db2, metrics) =>
      process_source_folder_chunks env ctx db2 (chunk_num + 1) rest
        { chunks_processed := totals.chunks_processed + 1,
          total_invoices := totals.total_invoices + metrics.invoices_found,
          total_non_invoices := totals.total_non_invoices + metrics.non_invoices,
          total_errors := totals.total_errors + metrics.errors.length }
    | Except.error _ =>
      process_source_folder_chunks env ctx db (chunk_num + 1) rest
        { totals with total_errors := totals.total_errors + emails.length }

/-- `models.Source` (the fields the scheduler reads). -/
structure Source where
  id : Nat
  user_id : String
  email_address : String
  oauth2_access_token : String
  oauth2_refresh_token : String
  oauth2_access_token_expires_at : Option Nat
deriving Repr, DecidableEq

/-- `refresh_source_token` (scheduler.py lines 234-275).  `now` is the
current instant (`datetime.now`), `exchange` the token-endpoint exchange
(`GmailSource.refresh_access_token`, called with the stored refresh
credential); an exchange failure — including missing credentials — raises and
is caught, yielding `none`.  The second component records whether a refresh
exchange was performed at all. -/
def refresh_source_token (now : Nat)
    (exchange : String → Except String String) (source : Source) :
    Option String × Bool :=
  let doRefresh : Option String × Bool :=
    match exchange source.oauth2_refresh_token with
    | Except.ok new_token => (some new_token, true)
    | Except.error _ => (none, true)
  match source.oauth2_access_token_expires_at with
  | some expires_at =>
    if now < expires_at then (some source.oauth2_access_token, false)
    else doRefresh
  | none => doRefresh

/-- Step 2 of `scheduler` (scheduler.py lines 388-399): the per-run token
map, one entry per source whose refresh succeeded.  `exchange` is keyed by
source id so different sources can have different exchange outcomes. -/
def schedulerTokens (now : Nat)
    (exchange : Nat → String → Except String String) (sources : List Source) :
    List (Nat × String) :=
  sources.filterMap (fun source =>
    ((refresh_source_token now (exchange source.id) source).1).map
      (fun token => (source.id, token)))

/-- Dictionary lookup in the per-run token map (`source_tokens.get`). -/
def lookupToken (source_tokens : List (Nat × String)) (sourceId : Nat) :
    Option String :=
  (source_tokens.find? (fun p => p.1 == sourceId)).map (fun p => p.2)

/-- Step 3 of `scheduler` (scheduler.py lines 401-418): per source, skip it
when it has no token, otherwise reconcile its folders (the remote folder
listing is the oracle `remoteFolders`) and collect the tracking-record
ids. -/
def schedulerReconcile (source_tokens : List (Nat × String))
    (remoteFolders : Nat → List FolderInfo) :
    List Source → DbState → List Nat × DbState
  | [], db => ([], db)
  | source :: rest, db =>
    match lookupToken source_tokens source.id with
    | none => schedulerReconcile source_tokens remoteFolders rest db
    | some _ =>
      let r := reconcile_folders db source.id (remoteFolders source.id)
      let r2 := schedulerReconcile source_tokens remoteFolders rest r.2
      (r.1 ++ r2.1, r2.2)

/-- Step 4 of `scheduler` (scheduler.py lines 420-448): one worker is spawned
per reconciled folder id that still resolves to a folder of a source holding
a token; the pair is (folder id, access token handed to the worker). -/
def schedulerSpawn (source_tokens : List (Nat × String)) (db : DbState)
    (folderIds : List Nat) : List (Nat × String) :=
  folderIds.filterMap (fun folderId =>
    match DatabaseClient.get_source_folder_by_id db folderId with
    | none => none
    | some folder =>
      (lookupToken source_tokens folder.source_id).map
        (fun token => (folderId, token)))

/-- Outward expansion of one tracking record's watermarks: a set high mark
never decreases, a set low mark never increases. -/
def markExpand (f g : SourceFolder) : Prop :=
  (∀ x, f.high_water_mark = some x →
    ∃ y, g.high_water_mark = some y ∧ x ≤ y) ∧
  (∀ x, f.low_water_mark = some x →
    ∃ y, g.low_water_mark = some y ∧ y ≤ x)

/-! ## Concrete instances used by the counterexamples and witnesses -/

/-- A worker context: folder 10 of source 5, user "u". -/
def ctx0 : ChunkCtx := ⟨10, "u", 5, "INBOX", "v1"⟩

/-- A database holding folder 10 with null watermarks. -/
def db0 : DbState := ⟨[⟨10, 5, "INBOX", "v1", none, none⟩], [], 11⟩

/-- A database holding folder 10 with watermarks 2/2. -/
def dbMarks : DbState := ⟨[⟨10, 5, "INBOX", "v1", some 2, some 2⟩], [], 11⟩

/-- Collaborators for the C1 scenario: every email parses (message id from
the payload length; only payload `[1]` carries an attachment), classifies as
an invoice and extracts, but every S3 upload fails. -/
def c1Env : WorkerEnv where
  parse := fun data =>
    Except.ok { message_id := "m" ++ toString data.length,
                attachments :=
                  if data = [1] then [⟨"a.pdf", "application/pdf", [7]⟩]
                  else [] }
  classify_email := fun _ => Except.ok ⟨true⟩
  extract_invoice := fun parsed => Except.ok (some ⟨"INV-" ++ parsed.message_id⟩)
  s3_exists := fun _ => false
  s3_upload := fun _ => Except.error "S3 upload failed"
  db_fail := fun _ => false

/-- Collaborators for which every database transaction fails. -/
def txFailEnv : WorkerEnv where
  parse := fun _ => Except.error "parse failure"
  classify_email := fun _ => Except.ok ⟨false⟩
  extract_invoice := fun _ => Except.ok none
  s3_exists := fun _ => true
  s3_upload := fun _ => Except.ok ()
  db_fail := fun _ => true

/-- Collaborators for the C3 witness, acting out the spec scenario: the email
with message id "m3" fails classification (LLM error), every other email is a
non-invoice; transactions commit. -/
def classifyFailEnv : WorkerEnv where
  parse := fun data =>
    Except.ok { message_id := "m" ++ toString data.length, attachments := [] }
  classify_email := fun parsed =>
    if parsed.message_id = "m3" then Except.error "LLM failure"
    else Except.ok ⟨false⟩
  extract_invoice := fun _ => Except.ok none
  s3_exists := fun _ => true
  s3_upload := fun _ => Except.ok ()
  db_fail := fun _ => false

/-- Collaborators for the C10 witness: every parse raises. -/
def parseFailEnv : WorkerEnv where
  parse := fun _ => Except.error "parse failure"
  classify_email := fun _ => Except.ok ⟨false⟩
  extract_invoice := fun _ => Except.ok none
  s3_exists := fun _ => true
  s3_upload := fun _ => Except.ok ()
  db_fail := fun _ => false

/-- An empty, well-formed database. -/
def emptyDb : DbState := ⟨[], [], 0⟩

/-- Two distinct remote folders, same epoch. -/
def infos0 : List FolderInfo := [⟨"INBOX", "v1"⟩, ⟨"Spam", "v1"⟩]

/-- A database holding one tracking record for INBOX at epoch "v1" with
established watermarks, for the C8 epoch-change witness. -/
def c8Db : DbState := ⟨[⟨0, 1, "INBOX", "v1", some 5, some 2⟩], [], 1⟩

/-- The C8 witness's pre-existing record. -/
def c8Old : SourceFolder := ⟨0, 1, "INBOX", "v1", some 5, some 2⟩

/-- A source whose token refresh will fail (no expiry stored). -/
def srcFail : Source := ⟨1, "u1", "a@example.com", "tokA", "refA", none⟩

/-- A source whose stored token is still valid at instant 50. -/
def srcOk : Source := ⟨2, "u2", "b@example.com", "tokB", "refB", some 100⟩

/-- A per-source exchange oracle: source 1's refresh is rejected, every other
refresh returns a fresh token. -/
def exchange0 : Nat → String → Except String String := fun sourceId _ =>
  if sourceId = 1 then Except.error "invalid_grant" else Except.ok "fresh"

/-! # Theorems

Helper lemmas come first, then one theorem per claim (C1-C10), each with its
witness where the statement carries hypotheses. -/

/-- C1: the claim says an attachment-upload failure aborts the chunk and
propagates to the caller.  The code intends this (`# S3 failure should fail
the chunk`, worker.py line 131, re-raising at line 132) but the outer
per-email `except Exception` at line 143 immediately catches the re-raised
exception, records it as a per-message error and continues — so the chunk
runs to completion and commits.  Here: message 1's upload fails, yet
`process_chunk` returns `Except.ok`, message 1 is a per-message error,
message 2 is still processed, its invoice inserted and the watermarks
committed over both uids. -/
theorem c1_attachment_failure_absorbed :
    process_chunk c1Env db0 [(1, [1]), (2, [])] ctx0 1 =
      Except.ok
        (⟨[⟨10, 5, "INBOX", "v1", some 2, some 1⟩],
          [⟨"u", 5, 2, "m0", "INV-m0", []⟩], 11⟩,
         ⟨10, 1, 2, 1, 1, 0, [(1, "S3 upload failed")]⟩) := by rfl

/-- Each iteration of the per-email loop puts the email in exactly one of
the three buckets (invoice, non-invoice, error). -/
theorem stepEmail_bucket_count (env : WorkerEnv) (ctx : ChunkCtx)
    (acc : ChunkAcc) (email : Nat × Bytes) :
    (stepEmail env ctx acc email).invoices_found +
      (stepEmail env ctx acc email).non_invoices +
      (stepEmail env ctx acc email).errors.length =
    acc.invoices_found + acc.non_invoices + acc.errors.length + 1 := by
  unfold stepEmail
  cases h : processEmailBody env ctx email.1 email.2 with
  | ok step => cases step <;> simp <;> omega
  | error e => simp; omega

/-- Bucket counting extended over the whole per-email loop. -/
theorem foldl_bucket_count (env : WorkerEnv) (ctx : ChunkCtx)
    (emails : List (Nat × Bytes)) :
    ∀ acc : ChunkAcc,
      (emails.foldl (stepEmail env ctx) acc).invoices_found +
        (emails.foldl (stepEmail env ctx) acc).non_invoices +
        (emails.foldl (stepEmail env ctx) acc).errors.length =
      acc.invoices_found + acc.non_invoices + acc.errors.length +
        emails.length := by
  induction emails with
  | nil => intro acc; simp
  | cons e rest ih =>
    intro acc
    have h1 := stepEmail_bucket_count env ctx acc e
    have h2 := ih (stepEmail env ctx acc e)
    simp only [List.foldl_cons, List.length_cons]
    omega

/-- C10: whenever `process_chunk` returns normally, every message of the
input list lands in exactly one of the three buckets, so
`invoices_found + non_invoices + len(errors) = emails_fetched`, and
`emails_fetched` is the length of the input list. -/
theorem c10_chunk_metrics_partition (env : WorkerEnv) (db : DbState)
    (emails : List (Nat × Bytes)) (ctx : ChunkCtx) (chunk_num : Nat)
    (dbOut : DbState) (m : ChunkMetrics)
    (h : process_chunk env db emails ctx chunk_num = Except.ok (dbOut, m)) :
    m.invoices_found + m.non_invoices + m.errors.length = m.emails_fetched ∧
    m.emails_fetched = emails.length := by
  unfold process_chunk at h
  by_cases hf : env.db_fail chunk_num
  · simp [hf] at h
  · simp only [hf, Bool.false_eq_true, if_false, Except.ok.injEq,
      Prod.mk.injEq] at h
    obtain ⟨-, hm⟩ := h
    subst hm
    refine ⟨?_, rfl⟩
    simpa using foldl_bucket_count env ctx emails
      { emails_processed := 0, invoices_found := 0, non_invoices := 0,
        errors := [], invoices_to_insert := [] }

/-- C10 witness: a chunk of two unparsable messages — both land in the error
bucket and the partition holds. -/
theorem c10_witness :
    process_chunk parseFailEnv emptyDb [(1, []), (2, [])] ctx0 1 =
      Except.ok (emptyDb,
        ⟨10, 1, 2, 0, 0, 0, [(1, "parse failure"), (2, "parse failure")]⟩) ∧
    ((⟨10, 1, 2, 0, 0, 0, [(1, "parse failure"), (2, "parse failure")]⟩ :
        ChunkMetrics).invoices_found +
      (⟨10, 1, 2, 0, 0, 0, [(1, "parse failure"), (2, "parse failure")]⟩ :
        ChunkMetrics).non_invoices +
      (⟨10, 1, 2, 0, 0, 0, [(1, "parse failure"), (2, "parse failure")]⟩ :
        ChunkMetrics).errors.length =
      (⟨10, 1, 2, 0, 0, 0, [(1, "parse failure"), (2, "parse failure")]⟩ :
        ChunkMetrics).emails_fetched ∧
      (⟨10, 1, 2, 0, 0, 0, [(1, "parse failure"), (2, "parse failure")]⟩ :
        ChunkMetrics).emails_fetched = 2) :=
  ⟨by rfl, c10_chunk_metrics_partition parseFailEnv emptyDb [(1, []), (2, [])]
    ctx0 1 emptyDb _ (by rfl)⟩

/-- When every per-uid fetch succeeds, the uids of the returned messages are
exactly the selected uids. -/
theorem fetch_map_uid (mbox : List Nat) (payload : Nat → Bytes)
    (high low : Option Nat) (batchSize : Nat) :
    (GmailSource.fetch mbox (fun u => some (payload u)) high low
        batchSize).map EmailMessage.uid =
      fetchUids mbox high low batchSize := by
  unfold GmailSource.fetch fetchMessages
  induction fetchUids mbox high low batchSize with
  | nil => rfl
  | cons u rest ih => simpa using ih

/-- The truncation `if len(combined) > batch_size: combined[:batch_size]` is
`List.take`. -/
theorem truncate_eq_take (c : List Nat) (n : Nat) :
    (if c.length > n then c.take n else c) = c.take n := by
  by_cases hc : c.length > n
  · simp [hc]
  · simp [hc, List.take_of_length_le (le_of_not_lt hc)]

/-- A left summand of length at most `n` survives `take n` whole. -/
theorem take_append_left_le (l₁ l₂ : List Nat) (n : Nat)
    (h : l₁.length ≤ n) : l₁ <+: (l₁ ++ l₂).take n := by
  rw [List.take_append_eq_append_take, List.take_of_length_le h]
  exact ⟨_, rfl⟩

/-- C4: with both watermarks set, the fetched uid list is the new arrivals
(uid > high, in mailbox order) followed by the historical uids (uid < low,
sorted ascending, oldest first), truncated to `limit` from the tail: whenever
the new arrivals fit in `limit` they are all retained, and whenever any
returned uid is not a new arrival, every new arrival was retained — plus the
spec scenario: limit 5, three new arrivals, ten historical ids gives all
three new arrivals and exactly the two oldest historical ids. -/
theorem c4_truncation_priority (mbox : List Nat) (payload : Nat → Bytes)
    (h l limit : Nat) :
    ((GmailSource.fetch mbox (fun u => some (payload u)) (some h) (some l)
        limit).map EmailMessage.uid =
      (searchFrom mbox (h + 1) ++
        List.insertionSort (· ≤ ·) (searchRange mbox 1 (l - 1))).take limit) ∧
    ((searchFrom mbox (h + 1)).length ≤ limit →
      searchFrom mbox (h + 1) <+:
        (GmailSource.fetch mbox (fun u => some (payload u)) (some h) (some l)
          limit).map EmailMessage.uid) ∧
    (∀ u ∈ (GmailSource.fetch mbox (fun u => some (payload u)) (some h)
        (some l) limit).map EmailMessage.uid,
      u ∉ searchFrom mbox (h + 1) →
      searchFrom mbox (h + 1) <+:
        (GmailSource.fetch mbox (fun u => some (payload u)) (some h) (some l)
          limit).map EmailMessage.uid) ∧
    (List.insertionSort (· ≤ ·) (searchRange mbox 1 (l - 1))).Sorted (· ≤ ·) ∧
    (GmailSource.fetch [1, 2, 3, 4, 5, 6, 7, 8, 9, 10, 16, 17, 18]
        (fun u => some (payload u)) (some 15) (some 11) 5).map
      EmailMessage.uid = [16, 17, 18, 1, 2] := by
  have hids : (GmailSource.fetch mbox (fun u => some (payload u)) (some h)
      (some l) limit).map EmailMessage.uid =
      (searchFrom mbox (h + 1) ++
        List.insertionSort (· ≤ ·) (searchRange mbox 1 (l - 1))).take limit := by
    rw [fetch_map_uid]
    unfold fetchUids
    exact truncate_eq_take _ _
  refine ⟨hids, ?_, ?_, List.sorted_insertionSort _ _, ?_⟩
  · intro hlen
    rw [hids]
    exact take_append_left_le _ _ _ hlen
  · intro u hu hnot
    by_cases hlen : (searchFrom mbox (h + 1)).length ≤ limit
    · rw [hids]; exact take_append_left_le _ _ _ hlen
    · exfalso
      apply hnot
      rw [hids, List.take_append_eq_append_take,
        Nat.sub_eq_zero_of_le (le_of_not_le hlen), List.take_zero,
        List.append_nil] at hu
      exact List.take_subset _ _ hu
  · rw [fetch_map_uid]
    decide

/-- C4 witness: the spec scenario evaluated through the theorem — ten
historical ids `1..10` (low = 11), three new arrivals `16,17,18`
(high = 15), limit 5. -/
theorem c4_witness :
    (GmailSource.fetch [1, 2, 3, 4, 5, 6, 7, 8, 9, 10, 16, 17, 18]
        (fun u => some [u]) (some 15) (some 11) 5).map
      EmailMessage.uid = [16, 17, 18, 1, 2] :=
  (c4_truncation_priority [1, 2, 3, 4, 5, 6, 7, 8, 9, 10, 16, 17, 18]
    (fun u => [u]) 15 11 5).2.2.2.2

/-- C5 counterexample: the claim quantifies over `limit`, but at `limit = 0`
the Python slice `all_uids[-0:]` is the WHOLE list, so a cold-start fetch
with limit 0 over a one-message mailbox returns that message instead of the
most recent zero messages. -/
theorem c5_cold_start_limit_zero_cex :
    ¬ ((GmailSource.fetch [1] (fun u => some [u]) none none 0).map
        EmailMessage.uid = []) := by decide

/-- C5 (amended: for `limit ≥ 1`): a cold-start fetch over an ascending
mailbox returns exactly the last `min limit n` uids — the newest `limit`
ids, still in ascending order, every dropped uid older than every returned
one — and the spec scenario: ids `1..20` with limit 10 yield `11..20`. -/
theorem c5_cold_start_fetch (mbox : List Nat) (payload : Nat → Bytes)
    (limit : Nat) (hlim : 1 ≤ limit) (hsort : mbox.Sorted (· < ·)) :
    ((GmailSource.fetch mbox (fun u => some (payload u)) none none limit).map
        EmailMessage.uid = mbox.drop (mbox.length - limit)) ∧
    ((GmailSource.fetch mbox (fun u => some (payload u)) none none limit).map
        EmailMessage.uid).Sorted (· < ·) ∧
    ((GmailSource.fetch mbox (fun u => some (payload u)) none none limit).map
        EmailMessage.uid).length = min limit mbox.length ∧
    (∀ x ∈ mbox, x ∉ mbox.drop (mbox.length - limit) →
      ∀ y ∈ mbox.drop (mbox.length - limit), x < y) ∧
    (GmailSource.fetch (List.range' 1 20) (fun u => some (payload u)) none
        none 10).map EmailMessage.uid =
      [11, 12, 13, 14, 15, 16, 17, 18, 19, 20] := by
  have hids : (GmailSource.fetch mbox (fun u => some (payload u)) none none
      limit).map EmailMessage.uid = mbox.drop (mbox.length - limit) := by
    rw [fetch_map_uid]
    unfold fetchUids searchAll sliceLastPy
    by_cases hlen : mbox.length > limit
    · simp only [hlen, if_true]
      have : ¬ limit = 0 := by omega
      simp [this]
    · have : mbox.length - limit = 0 := by omega
      simp [hlen, this]
  refine ⟨hids, ?_, ?_, ?_, ?_⟩
  · rw [hids]
    exact List.Pairwise.sublist (List.drop_sublist _ _) hsort
  · rw [hids, List.length_drop]
    omega
  · intro x hx hnx y hy
    have hsplit := List.take_append_drop (mbox.length - limit) mbox
    have hx2 : x ∈ mbox.take (mbox.length - limit) := by
      rcases (List.mem_append).mp (by rw [hsplit]; exact hx) with h1 | h2
      · exact h1
      · exact absurd h2 hnx
    have hpair : List.Pairwise (· < ·)
        (mbox.take (mbox.length - limit) ++ mbox.drop (mbox.length - limit)) := by
      rw [hsplit]; exact hsort
    exact ((List.pairwise_append).mp hpair).2.2 x hx2 y hy
  · rw [fetch_map_uid]
    decide

/-- C5 witness: hypotheses discharged at the spec scenario (limit 10,
mailbox `1..20`). -/
theorem c5_witness :
    (GmailSource.fetch (List.range' 1 20) (fun u => some [u]) none none
        10).map EmailMessage.uid =
      (List.range' 1 20).drop ((List.range' 1 20).length - 10) :=
  (c5_cold_start_fetch (List.range' 1 20) (fun u => [u]) 10 (by decide)
    (by decide)).1

/-- C6 counterexample: in the warm regime the combined result is still
truncated to `limit` (gmail.py lines 147-148), so with ids `1..20`,
high = 15 and limit 2 fetch returns `[16, 17]`, not all five ids greater
than 15 as the claim states. -/
theorem c6_warm_truncation_cex :
    ¬ ((GmailSource.fetch (List.range' 1 20) (fun u => some [u]) (some 15)
        none 2).map EmailMessage.uid = [16, 17, 18, 19, 20]) := by decide

/-- C6 (amended: up to truncation at `limit`): a warm fetch (high set, low
null) queries exactly the uids strictly greater than high and returns the
first `limit` of them in ascending mailbox order — all of them when they
number at most `limit`, and never any uid ≤ high — and the spec scenario:
ids `1..20`, high 15 and an ample limit yield exactly `16..20`. -/
theorem c6_warm_fetch (mbox : List Nat) (payload : Nat → Bytes)
    (h limit : Nat) :
    ((GmailSource.fetch mbox (fun u => some (payload u)) (some h) none
        limit).map EmailMessage.uid =
      (searchFrom mbox (h + 1)).take limit) ∧
    (∀ u ∈ (GmailSource.fetch mbox (fun u => some (payload u)) (some h) none
        limit).map EmailMessage.uid, h < u) ∧
    ((searchFrom mbox (h + 1)).length ≤ limit →
      (GmailSource.fetch mbox (fun u => some (payload u)) (some h) none
          limit).map EmailMessage.uid = searchFrom mbox (h + 1)) ∧
    (GmailSource.fetch (List.range' 1 20) (fun u => some (payload u))
        (some 15) none 2000).map EmailMessage.uid =
      [16, 17, 18, 19, 20] := by
  have hids : (GmailSource.fetch mbox (fun u => some (payload u)) (some h)
      none limit).map EmailMessage.uid =
      (searchFrom mbox (h + 1)).take limit := by
    have step1 : fetchUids mbox (some h) none limit =
        (searchFrom mbox (h + 1) ++ []).take limit :=
      truncate_eq_take _ _
    rw [List.append_nil] at step1
    rw [fetch_map_uid, step1]
  refine ⟨hids, ?_, ?_, ?_⟩
  · intro u hu
    rw [hids] at hu
    have hu2 : u ∈ searchFrom mbox (h + 1) := List.take_subset _ _ hu
    unfold searchFrom at hu2
    have h3 := of_decide_eq_true (List.mem_filter.mp hu2).2
    omega
  · intro hlen
    rw [hids, List.take_of_length_le hlen]
  · rw [fetch_map_uid]
    decide

/-- C6 witness: the amended characterization evaluated at the spec
scenario. -/
theorem c6_witness :
    (GmailSource.fetch (List.range' 1 20) (fun u => some [u]) (some 15) none
        2000).map EmailMessage.uid = [16, 17, 18, 19, 20] :=
  (c6_warm_fetch (List.range' 1 20) (fun u => [u]) 15 2000).2.2.2

/-- C2: if a chunk's transaction fails, `process_chunk` returns the error
(nothing of the chunk is committed — the caller's database state is exactly
the pre-chunk one, so no invoice of the chunk is stored and the tracking
record keeps its pre-chunk watermarks), and the worker loop counts every
message of the chunk as an error and proceeds to the next chunk with that
unchanged pre-chunk state. -/
theorem c2_chunk_tx_failure_rollback (env : WorkerEnv) (ctx : ChunkCtx)
    (db : DbState) (emails : List (Nat × Bytes)) (chunk_num : Nat)
    (rest : List (List (Nat × Bytes))) (totals : WorkerTotals)
    (hfail : env.db_fail chunk_num = true) :
    process_chunk env db emails ctx chunk_num =
      Except.error "Database transaction failed" ∧
    process_source_folder_chunks env ctx db chunk_num (emails :: rest) totals =
      process_source_folder_chunks env ctx db (chunk_num + 1) rest
        { totals with total_errors := totals.total_errors + emails.length } := by
  have h1 : process_chunk env db emails ctx chunk_num =
      Except.error "Database transaction failed" := by
    unfold process_chunk; simp [hfail]
  refine ⟨h1, ?_⟩
  rw [process_source_folder_chunks, h1]

/-- C2 witness: a failing transaction on a one-message chunk propagates the
error and the worker records one error and moves on. -/
theorem c2_witness :
    txFailEnv.db_fail 1 = true ∧
    (process_chunk txFailEnv db0 [(1, [])] ctx0 1 =
      Except.error "Database transaction failed" ∧
    process_source_folder_chunks txFailEnv ctx0 db0 1 [[(1, [])]]
        ⟨0, 0, 0, 0⟩ =
      process_source_folder_chunks txFailEnv ctx0 db0 2 []
        { (⟨0, 0, 0, 0⟩ : WorkerTotals) with total_errors := 0 + 1 }) :=
  ⟨rfl, c2_chunk_tx_failure_rollback txFailEnv ctx0 db0 [(1, [])] 1 []
    ⟨0, 0, 0, 0⟩ rfl⟩

/-- C8: when a folder's epoch identifier changes (no row matches the new
triple), reconciliation appends one fresh tracking record with NULL
watermarks and touches nothing else: every pre-existing row — in particular
the old epoch's record with its watermarks — is left exactly as it was, and
the invoice table is untouched. -/
theorem c8_epoch_change_isolated (db : DbState) (sourceId : Nat)
    (name newEpoch : String) (old : SourceFolder)
    (hchanged : DatabaseClient.get_folder_by_name_and_uidvalidity db sourceId
      name newEpoch = none)
    (hold : old ∈ db.folders) :
    (reconcile_folders db sourceId [⟨name, newEpoch⟩]).2.folders =
      db.folders ++
        [⟨db.nextFolderId, sourceId, name, newEpoch, none, none⟩] ∧
    old ∈ (reconcile_folders db sourceId [⟨name, newEpoch⟩]).2.folders ∧
    (reconcile_folders db sourceId [⟨name, newEpoch⟩]).1 =
      [db.nextFolderId] ∧
    (reconcile_folders db sourceId [⟨name, newEpoch⟩]).2.invoices =
      db.invoices := by
  have hmain : reconcile_folders db sourceId [⟨name, newEpoch⟩] =
      ([db.nextFolderId],
        { db with
          folders := db.folders ++
            [⟨db.nextFolderId, sourceId, name, newEpoch, none, none⟩],
          nextFolderId := db.nextFolderId + 1 }) := by
    rw [reconcile_folders, hchanged]
    rfl
  rw [hmain]
  exact ⟨rfl, List.mem_append_left _ hold, rfl, rfl⟩

/-- C8 witness: epoch of INBOX changes from "v1" to "v2"; the v1 record with
watermarks 5/2 stays untouched and a fresh null-watermark record appears. -/
theorem c8_witness :
    (reconcile_folders c8Db 1 [⟨"INBOX", "v2"⟩]).2.folders =
      c8Db.folders ++ [⟨c8Db.nextFolderId, 1, "INBOX", "v2", none, none⟩] ∧
    c8Old ∈ (reconcile_folders c8Db 1 [⟨"INBOX", "v2"⟩]).2.folders :=
  ⟨(c8_epoch_change_isolated c8Db 1 "INBOX" "v2" c8Old (by rfl)
      (by decide)).1,
   (c8_epoch_change_isolated c8Db 1 "INBOX" "v2" c8Old (by rfl)
      (by decide)).2.1⟩

/-- A `find?` hit in a table is preserved when rows are appended behind. -/
theorem find?_append_some {α : Type} (p : α → Bool) (l₁ l₂ : List α) (a : α)
    (h : l₁.find? p = some a) : (l₁ ++ l₂).find? p = some a := by
  rw [List.find?_append, h]
  rfl

/-- When no existing row matches but the first appended one does, `find?`
returns it, whatever comes after. -/
theorem find?_append_none_cons {α : Type} (p : α → Bool) (l₁ : List α)
    (a : α) (l₂ : List α) (h : l₁.find? p = none) (hp : p a = true) :
    (l₁ ++ a :: l₂).find? p = some a := by
  rw [List.find?_append, h, List.find?_cons_of_pos _ hp]
  rfl

/-- What a successful triple lookup says about the row it returns. -/
theorem folderMatches_spec (sourceId : Nat) (name epoch : String)
    (f : SourceFolder) (h : folderMatches sourceId name epoch f = true) :
    f.source_id = sourceId ∧ f.folder_name = name ∧ f.uid_validity = epoch := by
  unfold folderMatches at h
  simp only [Bool.and_eq_true, beq_iff_eq] at h
  exact ⟨h.1.1, h.1.2, h.2⟩

/-- Rows of a well-formed table are determined by their id. -/
theorem wf_id_inj (db : DbState) (hwf : DbWF db) (f g : SourceFolder)
    (hf : f ∈ db.folders) (hg : g ∈ db.folders) (hid : f.id = g.id) :
    f = g :=
  List.inj_on_of_nodup_map hwf.2.1 hf hg hid

/-- Creating a row for an absent triple preserves table well-formedness. -/
theorem create_preserves_wf (db : DbState) (sourceId : Nat)
    (name epoch : String) (hwf : DbWF db)
    (hnone : DatabaseClient.get_folder_by_name_and_uidvalidity db sourceId
      name epoch = none) :
    DbWF (DatabaseClient.create_source_folder db sourceId name epoch).2 := by
  obtain ⟨hlt, hnd, huniq⟩ := hwf
  have habsent : ∀ f ∈ db.folders,
      ¬ folderMatches sourceId name epoch f = true :=
    (List.find?_eq_none).mp hnone
  refine ⟨?_, ?_, ?_⟩
  · intro f hf
    rcases List.mem_append.mp hf with h1 | h2
    · exact Nat.lt_trans (hlt f h1) (Nat.lt_succ_self _)
    · rw [List.mem_singleton] at h2
      subst h2
      exact Nat.lt_succ_self _
  · show ((db.folders ++ [_]).map SourceFolder.id).Nodup
    rw [List.map_append]
    refine List.Nodup.append hnd (List.nodup_singleton _) ?_
    intro i hi hmem
    rw [List.map_singleton, List.mem_singleton] at hmem
    subst hmem
    obtain ⟨f, hf, hfi⟩ := List.mem_map.mp hi
    exact absurd (hfi ▸ hlt f hf) (lt_irrefl _)
  · intro f hf g hg h1 h2 h3
    rcases List.mem_append.mp hf with hf1 | hf2 <;>
      rcases List.mem_append.mp hg with hg1 | hg2
    · exact huniq f hf1 g hg1 h1 h2 h3
    · rw [List.mem_singleton] at hg2
      subst hg2
      exact absurd (by simp [folderMatches, h1, h2, h3])
        (habsent f hf1)
    · rw [List.mem_singleton] at hf2
      subst hf2
      exact absurd (by simp [folderMatches, ← h1, ← h2, ← h3])
        (habsent g hg1)
    · rw [List.mem_singleton] at hf2 hg2
      rw [hf2, hg2]

/-- The invariant carried through one reconciliation run: the final table is
well-formed, extends the initial one by appended rows only, every processed
folder resolves in the FINAL table to a row bearing the id that was returned
for it, and running reconciliation again from the final state is the
identity (same ids, same state). -/
theorem reconcile_aux (sourceId : Nat) (infos : List FolderInfo) :
    ∀ db : DbState, DbWF db →
    DbWF (reconcile_folders db sourceId infos).2 ∧
    (∃ ext, (reconcile_folders db sourceId infos).2.folders =
      db.folders ++ ext) ∧
    List.Forall₂ (fun (info : FolderInfo) (i : Nat) => ∃ f : SourceFolder,
        DatabaseClient.get_folder_by_name_and_uidvalidity
          (reconcile_folders db sourceId infos).2 sourceId info.name
          info.uid_validity = some f ∧ f.id = i)
      infos (reconcile_folders db sourceId infos).1 ∧
    reconcile_folders (reconcile_folders db sourceId infos).2 sourceId
      infos = reconcile_folders db sourceId infos := by
  induction infos with
  | nil =>
    intro db hwf
    exact ⟨hwf, ⟨[], by simp [reconcile_folders]⟩, List.Forall₂.nil, rfl⟩
  | cons info rest ih =>
    intro db hwf
    cases hlook : DatabaseClient.get_folder_by_name_and_uidvalidity db
        sourceId info.name info.uid_validity with
    | some existing =>
      obtain ⟨hwfF, ⟨ext, hext⟩, hfa, hfix⟩ := ih db hwf
      have hred : reconcile_folders db sourceId (info :: rest) =
          (existing.id :: (reconcile_folders db sourceId rest).1,
            (reconcile_folders db sourceId rest).2) := by
        rw [reconcile_folders, hlook]
      have hlookF : DatabaseClient.get_folder_by_name_and_uidvalidity
          (reconcile_folders db sourceId rest).2 sourceId info.name
          info.uid_validity = some existing := by
        unfold DatabaseClient.get_folder_by_name_and_uidvalidity at hlook ⊢
        rw [hext]
        exact find?_append_some _ _ _ _ hlook
      rw [hred]
      refine ⟨hwfF, ⟨ext, hext⟩, ?_, ?_⟩
      · exact List.Forall₂.cons ⟨existing, hlookF, rfl⟩ hfa
      · rw [reconcile_folders, hlookF, hfix]
    | none =>
      have hwf1 : DbWF (DatabaseClient.create_source_folder db sourceId
          info.name info.uid_validity).2 :=
        create_preserves_wf db sourceId info.name info.uid_validity hwf hlook
      obtain ⟨hwfF, ⟨ext, hext⟩, hfa, hfix⟩ :=
        ih (DatabaseClient.create_source_folder db sourceId info.name
          info.uid_validity).2 hwf1
      have hred : reconcile_folders db sourceId (info :: rest) =
          (db.nextFolderId ::
            (reconcile_folders (DatabaseClient.create_source_folder db
              sourceId info.name info.uid_validity).2 sourceId rest).1,
            (reconcile_folders (DatabaseClient.create_source_folder db
              sourceId info.name info.uid_validity).2 sourceId rest).2) := by
        rw [reconcile_folders, hlook]
        rfl
      have hext2 : (reconcile_folders (DatabaseClient.create_source_folder
          db sourceId info.name info.uid_validity).2 sourceId rest).2.folders
          = db.folders ++
            (⟨db.nextFolderId, sourceId, info.name, info.uid_validity, none,
              none⟩ :: ext) := by
        rw [hext]
        show (db.folders ++ [⟨db.nextFolderId, sourceId, info.name,
          info.uid_validity, none, none⟩]) ++ ext = db.folders ++
            (⟨db.nextFolderId, sourceId, info.name, info.uid_validity, none,
              none⟩ :: ext)
        rw [List.append_assoc]
        rfl
      have hlookF : DatabaseClient.get_folder_by_name_and_uidvalidity
          (reconcile_folders (DatabaseClient.create_source_folder db sourceId
            info.name info.uid_validity).2 sourceId rest).2 sourceId
          info.name info.uid_validity =
          some ⟨db.nextFolderId, sourceId, info.name, info.uid_validity,
            none, none⟩ := by
        unfold DatabaseClient.get_folder_by_name_and_uidvalidity at hlook ⊢
        rw [hext2]
        exact find?_append_none_cons _ _ _ _ hlook (by simp [folderMatches])
      rw [hred]
      refine ⟨hwfF, ⟨_, hext2⟩, ?_, ?_⟩
      · exact List.Forall₂.cons
          ⟨⟨db.nextFolderId, sourceId, info.name, info.uid_validity, none,
            none⟩, hlookF, rfl⟩ hfa
      · rw [reconcile_folders, hlookF, hfix]

/-- From a `Forall₂` the members of the right list are related to members of
the left. -/
theorem forall2_mem_right {α β : Type} {R : α → β → Prop} :
    ∀ {l₁ : List α} {l₂ : List β}, List.Forall₂ R l₁ l₂ →
      ∀ b ∈ l₂, ∃ a ∈ l₁, R a b := by
  intro l₁ l₂ h
  induction h with
  | nil => intro b hb; exact absurd hb (List.not_mem_nil b)
  | @cons a b as bs hR hrest ih =>
    intro c hc
    rcases List.mem_cons.mp hc with rfl | hc2
    · exact ⟨a, List.mem_cons_self a as, hR⟩
    · obtain ⟨x, hx, hr⟩ := ih c hc2
      exact ⟨x, List.mem_cons_of_mem _ hx, hr⟩

/-- A `Forall₂` along a right-injective relation maps a duplicate-free list
to a duplicate-free list. -/
theorem forall2_nodup {α β : Type} {R : α → β → Prop} :
    ∀ {l₁ : List α} {l₂ : List β}, List.Forall₂ R l₁ l₂ →
      (∀ a b x, R a x → R b x → a = b) → l₁.Nodup → l₂.Nodup := by
  intro l₁ l₂ h
  induction h with
  | nil => intro _ _; exact List.nodup_nil
  | @cons a b as bs hR hrest ih =>
    intro hinj hnd
    rw [List.nodup_cons] at hnd ⊢
    refine ⟨?_, ih hinj hnd.2⟩
    intro hb
    obtain ⟨a2, ha2, hr2⟩ := forall2_mem_right hrest b hb
    exact hnd.1 ((hinj a a2 b hR hr2) ▸ ha2)

/-- C7: reconciliation is idempotent — with the remote folder set unchanged
(a duplicate-free folder list), running reconciliation a second time from
the state the first run produced returns the very same tracking-record id
list and leaves the state untouched (lookup-or-create never creates a second
record for an existing triple), and the returned id list has no
duplicates. -/
theorem c7_reconcile_idempotent (db : DbState) (sourceId : Nat)
    (infos : List FolderInfo) (hwf : DbWF db) (hnd : infos.Nodup) :
    reconcile_folders (reconcile_folders db sourceId infos).2 sourceId
        infos = reconcile_folders db sourceId infos ∧
    (reconcile_folders db sourceId infos).1.Nodup := by
  obtain ⟨hwfF, -, hfa, hfix⟩ := reconcile_aux sourceId infos db hwf
  refine ⟨hfix, ?_⟩
  refine forall2_nodup hfa ?_ hnd
  rintro x y i ⟨f, hf, hfi⟩ ⟨g, hg, hgi⟩
  have hfmem := List.mem_of_find?_eq_some hf
  have hgmem := List.mem_of_find?_eq_some hg
  have hfg : f = g := wf_id_inj _ hwfF f g hfmem hgmem (by rw [hfi, hgi])
  obtain ⟨-, hfn, hfv⟩ := folderMatches_spec _ _ _ f (List.find?_some hf)
  obtain ⟨-, hgn, hgv⟩ := folderMatches_spec _ _ _ g (List.find?_some hg)
  cases x with
  | mk xn xv =>
    cases y with
    | mk yn yv =>
      dsimp only at hfn hfv hgn hgv
      simp only [FolderInfo.mk.injEq]
      exact ⟨by rw [← hfn, hfg, hgn], by rw [← hfv, hfg, hgv]⟩

/-- C7 witness: two fresh folders reconciled twice over an empty table —
the second run returns the same ids and changes nothing. -/
theorem c7_witness :
    reconcile_folders (reconcile_folders emptyDb 1 infos0).2 1 infos0 =
      reconcile_folders emptyDb 1 infos0 ∧
    (reconcile_folders emptyDb 1 infos0).1.Nodup :=
  c7_reconcile_idempotent emptyDb 1 infos0
    ⟨by simp [emptyDb], by simp [emptyDb], by simp [emptyDb]⟩ (by decide)

/-- Every entry of the per-run token map stems from a source whose refresh
yielded a token. -/
theorem schedulerTokens_mem (now : Nat)
    (exchange : Nat → String → Except String String) (sources : List Source)
    (p : Nat × String) (hp : p ∈ schedulerTokens now exchange sources) :
    ∃ src ∈ sources, src.id = p.1 ∧
      (refresh_source_token now (exchange src.id) src).1 = some p.2 := by
  unfold schedulerTokens at hp
  obtain ⟨src, hsrc, hmap⟩ := List.mem_filterMap.mp hp
  cases hres : (refresh_source_token now (exchange src.id) src).1 with
  | none => rw [hres] at hmap; exact absurd hmap (by simp)
  | some t =>
    rw [hres] at hmap
    simp only [Option.map_some', Option.some.injEq] at hmap
    cases hmap
    exact ⟨src, hsrc, rfl, by rw [hres]⟩

/-- A source whose refresh failed has no entry in the per-run token map. -/
theorem schedulerTokens_lookup_none (now : Nat)
    (exchange : Nat → String → Except String String) (sources : List Source)
    (s : Source) (hs : s ∈ sources)
    (hnd : (sources.map Source.id).Nodup)
    (hfail : (refresh_source_token now (exchange s.id) s).1 = none) :
    lookupToken (schedulerTokens now exchange sources) s.id = none := by
  have hnone : (schedulerTokens now exchange sources).find?
      (fun p => p.1 == s.id) = none := by
    rw [List.find?_eq_none]
    intro p hp hpid
    obtain ⟨src, hsrc, hid, hres⟩ :=
      schedulerTokens_mem now exchange sources p hp
    have hps : p.1 = s.id := by simpa using hpid
    have hss : src = s :=
      List.inj_on_of_nodup_map hnd hsrc hs (by rw [hid, hps])
    rw [hss] at hres
    rw [hfail] at hres
    exact Option.noConfusion hres
  unfold lookupToken
  rw [hnone]
  rfl

/-- Removing every source with the failed id from the input list does not
change the reconciliation phase: those sources are skipped anyway because
they hold no token. -/
theorem schedulerReconcile_skip_filter (source_tokens : List (Nat × String))
    (remoteFolders : Nat → List FolderInfo) (sid : Nat)
    (hnone : lookupToken source_tokens sid = none) :
    ∀ (sources : List Source) (db : DbState),
      schedulerReconcile source_tokens remoteFolders sources db =
        schedulerReconcile source_tokens remoteFolders
          (sources.filter (fun src => !(src.id == sid))) db := by
  intro sources
  induction sources with
  | nil => intro db; rfl
  | cons a rest ih =>
    intro db
    by_cases ha : a.id = sid
    · have hfa : (!(a.id == sid)) = false := by simp [ha]
      rw [List.filter_cons, hfa]
      simp only [Bool.false_eq_true, if_false]
      rw [schedulerReconcile, ha, hnone]
      exact ih db
    · have hfa : (!(a.id == sid)) = true := by simp [ha]
      rw [List.filter_cons, hfa]
      simp only [if_true]
      rw [schedulerReconcile, schedulerReconcile]
      cases hl : lookupToken source_tokens a.id with
      | none => exact ih db
      | some tok =>
        show ((reconcile_folders db a.id (remoteFolders a.id)).1 ++
            (schedulerReconcile source_tokens remoteFolders rest
              (reconcile_folders db a.id (remoteFolders a.id)).2).1,
          (schedulerReconcile source_tokens remoteFolders rest
            (reconcile_folders db a.id (remoteFolders a.id)).2).2) =
          ((reconcile_folders db a.id (remoteFolders a.id)).1 ++
            (schedulerReconcile source_tokens remoteFolders
              (List.filter (fun src => !src.id == sid) rest)
              (reconcile_folders db a.id (remoteFolders a.id)).2).1,
          (schedulerReconcile source_tokens remoteFolders
            (List.filter (fun src => !src.id == sid) rest)
            (reconcile_folders db a.id (remoteFolders a.id)).2).2)
        rw [ih (reconcile_folders db a.id (remoteFolders a.id)).2]

/-- No spawned worker targets a folder of a source holding no token. -/
theorem schedulerSpawn_excludes (source_tokens : List (Nat × String))
    (sid : Nat) (hnone : lookupToken source_tokens sid = none)
    (db : DbState) (folderIds : List Nat) (p : Nat × String)
    (hp : p ∈ schedulerSpawn source_tokens db folderIds)
    (f : SourceFolder)
    (hf : DatabaseClient.get_source_folder_by_id db p.1 = some f) :
    f.source_id ≠ sid := by
  unfold schedulerSpawn at hp
  obtain ⟨fid, hfid, hmap⟩ := List.mem_filterMap.mp hp
  cases hg : DatabaseClient.get_source_folder_by_id db fid with
  | none => rw [hg] at hmap; exact absurd hmap (by simp)
  | some folder =>
    rw [hg] at hmap
    have hmap2 : Option.map (fun token => (fid, token))
        (lookupToken source_tokens folder.source_id) = some p := hmap
    cases hl : lookupToken source_tokens folder.source_id with
    | none => rw [hl] at hmap2; exact absurd hmap2 (by simp)
    | some tok =>
      rw [hl] at hmap2
      simp only [Option.map_some', Option.some.injEq] at hmap2
      cases hmap2
      have hff : folder = f := by
        rw [hg] at hf
        exact Option.some.inj hf
      intro hcontra
      rw [hff, hcontra] at hl
      rw [hnone] at hl
      exact Option.noConfusion hl

/-- C9: the token lifecycle.  (1) `refresh_source_token` returns the stored
access token without any exchange exactly when the stored expiry is set and
strictly in the future; (2) otherwise it performs the refresh exchange with
the stored refresh credential, its outcome deciding the result; (3) a source
whose refresh failed has no token for the run, (4) the reconciliation phase
behaves exactly as if that source were absent (every other source proceeds
unaffected), and (5) no worker is spawned for any folder of that source. -/
theorem c9_token_lifecycle (now : Nat)
    (exchange : Nat → String → Except String String)
    (sources : List Source) (s : Source) (hs : s ∈ sources)
    (hnd : (sources.map Source.id).Nodup)
    (hfail : (refresh_source_token now (exchange s.id) s).1 = none) :
    (∀ (ex : String → Except String String) (src : Source),
      (refresh_source_token now ex src =
          (some src.oauth2_access_token, false) ↔
        ∃ e, src.oauth2_access_token_expires_at = some e ∧ now < e) ∧
      (¬ (∃ e, src.oauth2_access_token_expires_at = some e ∧ now < e) →
        refresh_source_token now ex src =
          (match ex src.oauth2_refresh_token with
           | Except.ok t => (some t, true)
           | Except.error _ => (none, true)))) ∧
    lookupToken (schedulerTokens now exchange sources) s.id = none ∧
    (∀ (remoteFolders : Nat → List FolderInfo) (db : DbState),
      schedulerReconcile (schedulerTokens now exchange sources)
          remoteFolders sources db =
        schedulerReconcile (schedulerTokens now exchange sources)
          remoteFolders (sources.filter (fun src => !(src.id == s.id))) db) ∧
    (∀ (db : DbState) (folderIds : List Nat) (p : Nat × String),
      p ∈ schedulerSpawn (schedulerTokens now exchange sources) db
          folderIds →
      ∀ f, DatabaseClient.get_source_folder_by_id db p.1 = some f →
        f.source_id ≠ s.id) := by
  have hlook := schedulerTokens_lookup_none now exchange sources s hs hnd hfail
  refine ⟨?_, hlook, ?_, ?_⟩
  · intro ex src
    constructor
    · unfold refresh_source_token
      cases hexp : src.oauth2_access_token_expires_at with
      | none =>
        cases hx : ex src.oauth2_refresh_token <;>
          simp_all [Prod.ext_iff]
      | some e =>
        by_cases hlt : now < e
        · simp [hlt]
        · cases hx : ex src.oauth2_refresh_token <;>
            simp_all [Prod.ext_iff]
    · intro hnot
      unfold refresh_source_token
      cases hexp : src.oauth2_access_token_expires_at with
      | none => rfl
      | some e =>
        have hle : ¬ now < e := fun hlt => hnot ⟨e, hexp, hlt⟩
        simp [hle]
  · intro remoteFolders db
    exact schedulerReconcile_skip_filter _ remoteFolders s.id hlook sources db
  · intro db folderIds p hp f hf
    exact schedulerSpawn_excludes _ s.id hlook db folderIds p hp f hf

/-- C9 witness: at instant 50, source 1's refresh is rejected by the
identity provider while source 2's stored token (expiry 100) is still valid;
source 1 ends up with no token for the run. -/
theorem c9_witness :
    lookupToken (schedulerTokens 50 exchange0 [srcFail, srcOk])
      srcFail.id = none :=
  (c9_token_lifecycle 50 exchange0 [srcFail, srcOk] srcFail (by decide)
    (by decide) (by rfl)).2.1

/-- The code's conditional high-mark update is `max`. -/
theorem if_gt_eq_max (a b : Nat) : (if b > a then b else a) = Nat.max a b := by
  by_cases h : b > a
  · rw [if_pos h]
    exact (Nat.max_eq_right (Nat.le_of_lt h)).symm
  · rw [if_neg h]
    exact (Nat.max_eq_left (Nat.le_of_not_lt h)).symm

/-- The code's conditional low-mark update is `min`. -/
theorem if_lt_eq_min (a b : Nat) : (if b < a then b else a) = Nat.min a b := by
  by_cases h : b < a
  · rw [if_pos h]
    exact (Nat.min_eq_right (Nat.le_of_lt h)).symm
  · rw [if_neg h]
    exact (Nat.min_eq_left (Nat.le_of_not_lt h)).symm

/-- The watermark UPDATE rewrites the looked-up row in place: looking the id
up afterwards yields that row with the new marks. -/
theorem find?_cons_pos' {α : Type} (p : α → Bool) (a : α) (l : List α)
    (h : p a = true) : (a :: l).find? p = some a :=
  List.find?_cons_of_pos l h

theorem find?_cons_neg' {α : Type} (p : α → Bool) (a : α) (l : List α)
    (h : ¬ p a = true) : (a :: l).find? p = l.find? p :=
  List.find?_cons_of_neg l h

theorem find?_id_update (folders : List SourceFolder) (fid : Nat)
    (high low : Option Nat) (f : SourceFolder)
    (h : folders.find? (fun g => g.id == fid) = some f) :
    (folders.map (fun g =>
        if g.id == fid then
          { g with high_water_mark := high, low_water_mark := low }
        else g)).find? (fun g => g.id == fid) =
      some { f with high_water_mark := high, low_water_mark := low } := by
  induction folders with
  | nil => exact absurd h (by simp)
  | cons a rest ih =>
    by_cases ha : (a.id == fid) = true
    · rw [find?_cons_pos' (fun (g : SourceFolder) => g.id == fid) a rest ha] at h
      have haf : a = f := Option.some.inj h
      subst haf
      rw [List.map_cons, if_pos ha]
      exact find?_cons_pos' (fun (g : SourceFolder) => g.id == fid) _ _ (by simpa using ha)
    · rw [find?_cons_neg' (fun (g : SourceFolder) => g.id == fid) a rest ha] at h
      rw [List.map_cons, if_neg ha]
      rw [find?_cons_neg' (fun (g : SourceFolder) => g.id == fid) _ _ ha]
      exact ih h

/-- `get_source_folder_by_id` after `update_source_folder_watermarks`. -/
theorem get_after_update (db : DbState) (fid : Nat) (high low : Option Nat)
    (f : SourceFolder)
    (h : DatabaseClient.get_source_folder_by_id db fid = some f) :
    DatabaseClient.get_source_folder_by_id
        (DatabaseClient.update_source_folder_watermarks db fid high low)
        fid =
      some { f with high_water_mark := high, low_water_mark := low } :=
  find?_id_update db.folders fid high low f h

/-- Inserting invoices leaves the source_folder table alone. -/
theorem get_after_insert (db : DbState) (invs : List InvoiceRow) (fid : Nat) :
    DatabaseClient.get_source_folder_by_id
        (DatabaseClient.insert_invoices db invs) fid =
      DatabaseClient.get_source_folder_by_id db fid := rfl

/-- What the chunk transaction commits for the tracking record, over a
non-empty message list: exactly the code's conditional update, which equals
`max(existing high, max uid)` / `min(existing low, min uid)` over ALL
attempted uids, a null existing mark being treated as absent. -/
theorem chunkTransactionBody_get (db : DbState) (ctx : ChunkCtx)
    (emails : List (Nat × Bytes)) (invs : List InvoiceRow)
    (folder : SourceFolder) (hne : emails ≠ [])
    (hfolder : DatabaseClient.get_source_folder_by_id db
      ctx.source_folder_id = some folder) :
    DatabaseClient.get_source_folder_by_id
        (chunkTransactionBody db ctx emails invs) ctx.source_folder_id =
      some { folder with
        high_water_mark := some (match folder.high_water_mark with
          | none => (emails.map Prod.fst).foldl Nat.max 0
          | some h => Nat.max h ((emails.map Prod.fst).foldl Nat.max 0)),
        low_water_mark := some (match folder.low_water_mark with
          | none => (emails.map Prod.fst).foldl Nat.min
              ((emails.map Prod.fst).headD 0)
          | some l => Nat.min l ((emails.map Prod.fst).foldl Nat.min
              ((emails.map Prod.fst).headD 0))) } := by
  have hne2 : (emails.map Prod.fst).isEmpty = false := by
    cases emails with
    | nil => exact absurd rfl hne
    | cons a t => rfl
  have hget1 : DatabaseClient.get_source_folder_by_id
      (if invs.isEmpty then db else DatabaseClient.insert_invoices db invs)
      ctx.source_folder_id = some folder := by
    by_cases hinv : invs.isEmpty
    · rw [if_pos hinv]; exact hfolder
    · rw [if_neg hinv]; rw [get_after_insert]; exact hfolder
  have hhc : (match folder.high_water_mark with
      | none => (emails.map Prod.fst).foldl Nat.max 0
      | some h => if (emails.map Prod.fst).foldl Nat.max 0 > h then
          (emails.map Prod.fst).foldl Nat.max 0 else h) =
      (match folder.high_water_mark with
      | none => (emails.map Prod.fst).foldl Nat.max 0
      | some h => Nat.max h ((emails.map Prod.fst).foldl Nat.max 0)) := by
    cases folder.high_water_mark with
    | none => rfl
    | some h => exact if_gt_eq_max h _
  have hlc : (match folder.low_water_mark with
      | none => (emails.map Prod.fst).foldl Nat.min
          ((emails.map Prod.fst).headD 0)
      | some l => if (emails.map Prod.fst).foldl Nat.min
            ((emails.map Prod.fst).headD 0) < l then
          (emails.map Prod.fst).foldl Nat.min ((emails.map Prod.fst).headD 0)
        else l) =
      (match folder.low_water_mark with
      | none => (emails.map Prod.fst).foldl Nat.min
          ((emails.map Prod.fst).headD 0)
      | some l => Nat.min l ((emails.map Prod.fst).foldl Nat.min
          ((emails.map Prod.fst).headD 0))) := by
    cases folder.low_water_mark with
    | none => rfl
    | some l => exact if_lt_eq_min l _
  unfold chunkTransactionBody
  simp only [hne2, Bool.false_eq_true, if_false]
  rw [hget1]
  rw [← hhc, ← hlc]
  exact get_after_update _ ctx.source_folder_id _ _ folder hget1

/-- `markExpand` is reflexive. -/
theorem markExpand_refl (f : SourceFolder) : markExpand f f :=
  ⟨fun x hx => ⟨x, hx, Nat.le_refl x⟩, fun x hx => ⟨x, hx, Nat.le_refl x⟩⟩

/-- `markExpand` is transitive. -/
theorem markExpand_trans {f g h : SourceFolder} (h1 : markExpand f g)
    (h2 : markExpand g h) : markExpand f h := by
  obtain ⟨ha, hb⟩ := h1
  obtain ⟨hc, hd⟩ := h2
  constructor
  · intro x hx
    obtain ⟨y, hy, hxy⟩ := ha x hx
    obtain ⟨z, hz, hyz⟩ := hc y hy
    exact ⟨z, hz, Nat.le_trans hxy hyz⟩
  · intro x hx
    obtain ⟨y, hy, hxy⟩ := hb x hx
    obtain ⟨z, hz, hyz⟩ := hd y hy
    exact ⟨z, hz, Nat.le_trans hyz hxy⟩

/-- One chunk transaction only ever expands the tracking record's marks. -/
theorem chunkTransactionBody_mono (db : DbState) (ctx : ChunkCtx)
    (emails : List (Nat × Bytes)) (invs : List InvoiceRow)
    (folder : SourceFolder)
    (hfolder : DatabaseClient.get_source_folder_by_id db
      ctx.source_folder_id = some folder) :
    ∃ g, DatabaseClient.get_source_folder_by_id
        (chunkTransactionBody db ctx emails invs) ctx.source_folder_id =
      some g ∧ markExpand folder g := by
  cases hemails : emails with
  | nil =>
    refine ⟨folder, ?_, markExpand_refl folder⟩
    unfold chunkTransactionBody
    simp only [List.map_nil, List.isEmpty_nil, if_true]
    by_cases hinv : invs.isEmpty
    · rw [if_pos hinv]; exact hfolder
    · rw [if_neg hinv]; rw [get_after_insert]; exact hfolder
  | cons e rest =>
    have hne : emails ≠ [] := by rw [hemails]; exact List.cons_ne_nil e rest
    rw [← hemails]
    refine ⟨_, chunkTransactionBody_get db ctx emails invs folder hne
      hfolder, ?_, ?_⟩
    · intro x hx
      rw [hx]
      exact ⟨_, rfl, Nat.le_max_left x _⟩
    · intro x hx
      rw [hx]
      exact ⟨_, rfl, Nat.min_le_left x _⟩

/-- Across the whole chunk loop — committed chunks and rolled-back chunks
alike — the tracking record's marks only expand. -/
theorem process_source_folder_chunks_mono (env : WorkerEnv) (ctx : ChunkCtx) :
    ∀ (chunks : List (List (Nat × Bytes))) (db : DbState) (n : Nat)
      (totals : WorkerTotals) (folder : SourceFolder),
      DatabaseClient.get_source_folder_by_id db ctx.source_folder_id =
        some folder →
      ∃ g, DatabaseClient.get_source_folder_by_id
          (process_source_folder_chunks env ctx db n chunks totals).1
          ctx.source_folder_id = some g ∧ markExpand folder g := by
  intro chunks
  induction chunks with
  | nil =>
    intro db n totals folder hf
    exact ⟨folder, hf, markExpand_refl folder⟩
  | cons c rest ih =>
    intro db n totals folder hf
    rw [process_source_folder_chunks]
    cases hdf : env.db_fail n with
    | true =>
      have hpc : process_chunk env db c ctx n =
          Except.error "Database transaction failed" := by
        unfold process_chunk; simp [hdf]
      rw [hpc]
      exact ih db (n + 1) _ folder hf
    | false =>
      have hpc : process_chunk env db c ctx n = Except.ok
          (chunkTransactionBody db ctx c
            ((c.foldl (stepEmail env ctx)
              { emails_processed := 0, invoices_found := 0, non_invoices := 0,
                errors := [], invoices_to_insert := [] }).invoices_to_insert),
           { source_folder_id := ctx.source_folder_id, chunk_num := n,
             emails_fetched := c.length,
             emails_processed := (c.foldl (stepEmail env ctx)
               { emails_processed := 0, invoices_found := 0,
                 non_invoices := 0, errors := [],
                 invoices_to_insert := [] }).emails_processed,
             invoices_found := (c.foldl (stepEmail env ctx)
               { emails_processed := 0, invoices_found := 0,
                 non_invoices := 0, errors := [],
                 invoices_to_insert := [] }).invoices_found,
             non_invoices := (c.foldl (stepEmail env ctx)
               { emails_processed := 0, invoices_found := 0,
                 non_invoices := 0, errors := [],
                 invoices_to_insert := [] }).non_invoices,
             errors := (c.foldl (stepEmail env ctx)
               { emails_processed := 0, invoices_found := 0,
                 non_invoices := 0, errors := [],
                 invoices_to_insert := [] }).errors }) := by
        unfold process_chunk
        simp [hdf]
      rw [hpc]
      obtain ⟨g1, hg1, hm1⟩ := chunkTransactionBody_mono db ctx c _ folder hf
      obtain ⟨g, hg, hm2⟩ := ih (chunkTransactionBody db ctx c
        ((c.foldl (stepEmail env ctx)
          { emails_processed := 0, invoices_found := 0, non_invoices := 0,
            errors := [], invoices_to_insert := [] }).invoices_to_insert))
        (n + 1) _ g1 hg1
      exact ⟨g, hg, markExpand_trans hm1 hm2⟩

/-- C3: a successful chunk commit over a non-empty message list writes
exactly `high = max(existing high, max uid attempted)` and
`low = min(existing low, min uid attempted)` — the uids being ALL attempted
message ids, successes and failures alike, and a null existing mark treated
as absent — and consequently, across any sequence of chunks processed on one
tracking record, a set high mark never decreases and a set low mark never
increases. -/
theorem c3_watermark_expansion (env : WorkerEnv) (ctx : ChunkCtx)
    (db : DbState) (emails : List (Nat × Bytes)) (chunk_num : Nat)
    (folder : SourceFolder)
    (hne : emails ≠ [])
    (hok : env.db_fail chunk_num = false)
    (hfolder : DatabaseClient.get_source_folder_by_id db
      ctx.source_folder_id = some folder) :
    (∃ dbOut m, process_chunk env db emails ctx chunk_num =
        Except.ok (dbOut, m) ∧
      DatabaseClient.get_source_folder_by_id dbOut ctx.source_folder_id =
        some { folder with
          high_water_mark := some (match folder.high_water_mark with
            | none => (emails.map Prod.fst).foldl Nat.max 0
            | some h => Nat.max h ((emails.map Prod.fst).foldl Nat.max 0)),
          low_water_mark := some (match folder.low_water_mark with
            | none => (emails.map Prod.fst).foldl Nat.min
                ((emails.map Prod.fst).headD 0)
            | some l => Nat.min l ((emails.map Prod.fst).foldl Nat.min
                ((emails.map Prod.fst).headD 0))) }) ∧
    (∀ (chunks : List (List (Nat × Bytes))) (n0 : Nat)
      (totals : WorkerTotals),
      ∃ g, DatabaseClient.get_source_folder_by_id
          (process_source_folder_chunks env ctx db n0 chunks totals).1
          ctx.source_folder_id = some g ∧ markExpand folder g) := by
  constructor
  · have hpc : process_chunk env db emails ctx chunk_num = Except.ok
        (chunkTransactionBody db ctx emails
          ((emails.foldl (stepEmail env ctx)
            { emails_processed := 0, invoices_found := 0, non_invoices := 0,
              errors := [], invoices_to_insert := [] }).invoices_to_insert),
         { source_folder_id := ctx.source_folder_id, chunk_num := chunk_num,
           emails_fetched := emails.length,
           emails_processed := (emails.foldl (stepEmail env ctx)
             { emails_processed := 0, invoices_found := 0, non_invoices := 0,
               errors := [], invoices_to_insert := [] }).emails_processed,
           invoices_found := (emails.foldl (stepEmail env ctx)
             { emails_processed := 0, invoices_found := 0, non_invoices := 0,
               errors := [], invoices_to_insert := [] }).invoices_found,
           non_invoices := (emails.foldl (stepEmail env ctx)
             { emails_processed := 0, invoices_found := 0, non_invoices := 0,
               errors := [], invoices_to_insert := [] }).non_invoices,
           errors := (emails.foldl (stepEmail env ctx)
             { emails_processed := 0, invoices_found := 0, non_invoices := 0,
               errors := [], invoices_to_insert := [] }).errors }) := by
      unfold process_chunk
      simp [hok]
    exact ⟨_, _, hpc,
      chunkTransactionBody_get db ctx emails _ folder hne hfolder⟩
  · intro chunks n0 totals
    exact process_source_folder_chunks_mono env ctx chunks db n0 totals
      folder hfolder

/-- C3 witness: the spec scenario — a chunk with uids 1, 2, 3 where the
message with the maximal uid 3 fails classification — still advances folder
10's high mark from 2 to 3 and its low mark from 2 to 1. -/
theorem c3_witness :
    ([(1, [1]), (2, [1, 1]), (3, [1, 1, 1])] : List (Nat × Bytes)) ≠ [] ∧
    classifyFailEnv.db_fail 1 = false ∧
    (∃ dbOut m, process_chunk classifyFailEnv dbMarks
        [(1, [1]), (2, [1, 1]), (3, [1, 1, 1])] ctx0 1 =
        Except.ok (dbOut, m) ∧
      DatabaseClient.get_source_folder_by_id dbOut ctx0.source_folder_id =
        some ⟨10, 5, "INBOX", "v1", some 3, some 1⟩) :=
  ⟨by decide, rfl,
    (c3_watermark_expansion classifyFailEnv ctx0 dbMarks
      [(1, [1]), (2, [1, 1]), (3, [1, 1, 1])] 1
      ⟨10, 5, "INBOX", "v1", some 2, some 2⟩ (by decide) rfl (by rfl)).1⟩
